import Mathlib

/-!
Shallow embedding of the core analysis pipeline of the `apple_health_export`
repository (module `src/analysis`), together with theorems settling the
specification claims about it.

Conventions of the embedding:
* Calendar dates are modelled as integers (`ℤ`): the code only ever uses
  day-resolution dates, their ordering, and day differences.
* Numeric sample values are modelled as rationals (`ℚ`).  A raw sample's
  `value` field is a string in the code, parsed with `float(...)`; an
  unparseable value is modelled as `none`.
* Python dicts keyed by date are modelled either as sorted key lists plus
  lookup functions, mirroring how the code only ever iterates `sorted(keys)`
  and performs `get` lookups.
* Fallible loaders return an explicit result type instead of printing and
  returning `False`.
-/

/-- A raw sample row as produced by `load_csv_data`: a day-resolution date and
the (possibly unparseable) numeric value.  Mirrors the dicts built in
`src/analysis/utils.py:load_csv_data`. -/
structure Entry where
  date : ℤ
  value : Option ℚ
deriving DecidableEq, Repr

instance : Inhabited Entry := ⟨⟨0, none⟩⟩

/-- A daily aggregate as produced by `aggregate_daily_data`
(`src/analysis/utils.py` lines 104-138). -/
structure DailyPoint where
  date : ℤ
  value : ℚ
  count : ℕ
deriving DecidableEq, Repr

instance : Inhabited DailyPoint := ⟨⟨0, 0, 0⟩⟩

/-- The parseable values recorded on day `d`, in input order: the list
`daily_data[d]` built by the grouping loop of `aggregate_daily_data`. -/
def valuesOn (data : List Entry) (d : ℤ) : List ℚ :=
  (data.filter (fun e => e.date == d)).filterMap (fun e => e.value)

/-- The sorted, duplicate-free list of dates carrying at least one parseable
value: `sorted(daily_data.keys())` in `aggregate_daily_data`. -/
def dateKeysL (data : List Entry) : List ℤ :=
  List.insertionSort (· ≤ ·)
    (((data.filter (fun e => e.value.isSome)).map (fun e => e.date)).dedup)

/-- Arithmetic mean (`statistics.mean`). -/
def listMean (l : List ℚ) : ℚ := l.sum / l.length

/-- Maximum of a list (`max(values)`); only ever applied to non-empty lists in
the code, which raises on an empty argument. -/
def listMax : List ℚ → ℚ
  | [] => 0
  | x :: xs => xs.foldl max x

/-- Minimum of a list (`min(values)`); only ever applied to non-empty lists in
the code, which raises on an empty argument. -/
def listMin : List ℚ → ℚ
  | [] => 0
  | x :: xs => xs.foldl min x

/-- The reducer dispatch of `aggregate_daily_data` (lines 121-130): `mean`,
`sum`, `max`, `min`, and the `else` branch defaulting to the mean. -/
def aggValue (agg : String) (l : List ℚ) : ℚ :=
  if agg = "mean" then listMean l
  else if agg = "sum" then l.sum
  else if agg = "max" then listMax l
  else if agg = "min" then listMin l
  else listMean l

/-- `aggregate_daily_data` (`src/analysis/utils.py` lines 104-138): group the
parseable samples by calendar date, reduce each day's values with the selected
reducer, and emit one `DailyPoint` per date in ascending date order. -/
def aggregate_daily_data (data : List Entry) (agg : String) : List DailyPoint :=
  (dateKeysL data).map (fun d =>
    ⟨d, aggValue agg (valuesOn data d), (valuesOn data d).length⟩)

-- ### Helper lemmas about the daily aggregator

lemma valuesOn_filter_isSome (data : List Entry) (d : ℤ) :
    valuesOn (data.filter (fun e => e.value.isSome)) d = valuesOn data d := by
  unfold valuesOn
  induction data with
  | nil => rfl
  | cons e rest ih =>
    by_cases hd : e.date = d
    · cases hv : e.value with
      | none => simp [List.filter_cons, hd, hv, List.filterMap_cons] at ih ⊢; exact ih
      | some v => simp [List.filter_cons, hd, hv, List.filterMap_cons] at ih ⊢; exact ih
    · simp [List.filter_cons, hd] at ih ⊢
      rcases hv : e.value with _ | v <;> simp [hv, List.filter_cons, hd] <;> exact ih

lemma dateKeysL_filter_isSome (data : List Entry) :
    dateKeysL (data.filter (fun e => e.value.isSome)) = dateKeysL data := by
  unfold dateKeysL
  congr 2
  simp [List.filter_filter]

lemma dateKeysL_nodup (data : List Entry) : (dateKeysL data).Nodup :=
  ((List.perm_insertionSort _ _).nodup_iff).mpr (List.nodup_dedup _)

lemma dateKeysL_sorted_lt (data : List Entry) :
    (dateKeysL data).Sorted (· < ·) :=
  List.Sorted.lt_of_le (List.sorted_insertionSort _ _) (dateKeysL_nodup data)

lemma mem_dateKeysL {data : List Entry} {d : ℤ} :
    d ∈ dateKeysL data ↔ ∃ e ∈ data, e.date = d ∧ e.value.isSome := by
  unfold dateKeysL
  rw [List.mem_insertionSort, List.mem_dedup, List.mem_map]
  constructor
  · rintro ⟨e, he, rfl⟩
    rw [List.mem_filter] at he
    exact ⟨e, he.1, rfl, he.2⟩
  · rintro ⟨e, he, hd, hs⟩
    exact ⟨e, List.mem_filter.mpr ⟨he, hs⟩, hd⟩

-- ### Claim C8: invariants of the daily aggregator

/-- Claim C8: for every input sample sequence and every reducer, the daily
aggregator's output is sorted ascending by date with strictly increasing,
duplicate-free dates; samples whose value is non-numeric or unparseable are
skipped silently (removing them from the input does not change the output);
and an empty input yields an empty output without error. -/
theorem aggregate_daily_data_invariants (data : List Entry) (agg : String) :
    ((aggregate_daily_data data agg).map (fun p => p.date)).Sorted (· < ·)
    ∧ aggregate_daily_data data agg
        = aggregate_daily_data (data.filter (fun e => e.value.isSome)) agg
    ∧ aggregate_daily_data ([] : List Entry) agg = [] := by
  refine ⟨?_, ?_, rfl⟩
  · have : (aggregate_daily_data data agg).map (fun p => p.date) = dateKeysL data := by
      unfold aggregate_daily_data
      rw [List.map_map]
      exact List.map_id' _
    rw [this]
    exact dateKeysL_sorted_lt data
  · unfold aggregate_daily_data
    rw [dateKeysL_filter_isSome]
    apply List.map_congr_left
    intro d _
    rw [valuesOn_filter_isSome]

-- ### Claim C10: unrecognized reducers fall back to the mean

/-- Claim C10: for every input sample sequence and every aggregation string
that is not one of "mean", "sum", "max", "min", the daily aggregator returns
exactly the same output as with aggregation "mean": the `else` branch of the
reducer dispatch silently computes the mean. -/
theorem aggregate_daily_data_default_mean (data : List Entry) (agg : String)
    (h : agg ∉ ["mean", "sum", "max", "min"]) :
    aggregate_daily_data data agg = aggregate_daily_data data "mean" := by
  simp only [List.mem_cons, List.mem_singleton] at h
  push_neg at h
  obtain ⟨h1, h2, h3, h4⟩ := h
  unfold aggregate_daily_data
  apply List.map_congr_left
  intro d _
  simp [aggValue, h1, h2, h3, h4]

/-- Witness for C10 at a concrete input: "median" is not a recognized reducer
and aggregating with it coincides with aggregating by the mean. -/
theorem aggregate_daily_data_default_mean_witness :
    ("median" ∉ ["mean", "sum", "max", "min"])
    ∧ aggregate_daily_data [⟨0, some 1⟩, ⟨0, some 3⟩] "median"
        = aggregate_daily_data [⟨0, some 1⟩, ⟨0, some 3⟩] "mean" :=
  ⟨by decide, aggregate_daily_data_default_mean _ "median" (by decide)⟩

-- ### Rolling averager (`calculate_rolling_average`, utils.py lines 140-162)

/-- A rolling-average output point: date plus windowed mean. -/
structure RollingPoint where
  date : ℤ
  value : ℚ
deriving DecidableEq, Repr

/-- `calculate_rolling_average` (`src/analysis/utils.py` lines 140-162): for
each index `i` take the values at indices `range(max(0, i - w/2),
min(n, i + w/2 + 1))` (Python's `window_days // 2` is `w / 2` on `ℕ`, and
`max(0, i - w/2)` is truncated subtraction), emit the mean tagged with the
date at index `i` when the window has at least 3 values, and return `[]`
outright when the input has fewer than 3 points. -/
def calculate_rolling_average (dd : List DailyPoint) (w : ℕ) : List RollingPoint :=
  if dd.length < 3 then []
  else
    (List.range dd.length).filterMap (fun i =>
      let s := i - w / 2
      let e := min dd.length (i + w / 2 + 1)
      let window := (List.range' s (e - s)).map (fun j => (dd.getD j default).value)
      if 3 ≤ window.length then
        some ⟨(dd.getD i default).date, listMean window⟩
      else none)

/-- Transcribed from the spec's own words, for the refinement claim C3: the
window at index `i` is the records at indices `[i − windowDays//2,
i + windowDays//2]` clipped to the array bounds; an index whose clipped
window holds fewer than 3 points produces no output point; otherwise the
output is the arithmetic mean of the window values tagged with the original
date at index `i`; an input of fewer than 3 points yields an empty output. -/
def rollingSpec (dd : List DailyPoint) (w : ℕ) : List RollingPoint :=
  if dd.length < 3 then []
  else
    (List.range dd.length).filterMap (fun i =>
      let lo := i - w / 2
      let hi := min (dd.length - 1) (i + w / 2)
      let idxs := List.range' lo (hi + 1 - lo)
      if 3 ≤ idxs.length then
        some ⟨(dd.getD i default).date,
              listMean (idxs.map (fun j => (dd.getD j default).value))⟩
      else none)

-- ### Claim C3: the rolling averager refines its specification

/-- Claim C3: for every input daily series and window size, the code's rolling
average agrees with the specification: at index `i` it averages the values at
indices `[i − windowDays//2, i + windowDays//2]` clipped to the array bounds,
tags the result with the original date at index `i`, omits any index whose
clipped window holds fewer than 3 points, and returns an empty output for
inputs of fewer than 3 points. -/
theorem calculate_rolling_average_spec (dd : List DailyPoint) (w : ℕ) :
    calculate_rolling_average dd w = rollingSpec dd w := by
  unfold calculate_rolling_average rollingSpec
  by_cases h : dd.length < 3
  · rw [if_pos h, if_pos h]
  · rw [if_neg h, if_neg h]
    congr 1
    funext i
    have hlen : min dd.length (i + w / 2 + 1) - (i - w / 2)
        = min (dd.length - 1) (i + w / 2) + 1 - (i - w / 2) := by omega
    simp only [hlen, List.length_map]

-- ### Gap segmenter (`split_data_by_gaps`, utils.py lines 164-192)

/-- The main loop of `split_data_by_gaps`: `prev` is the point inspected on
the previous iteration, `cur` the segment being accumulated.  When the day
gap to the next point strictly exceeds `g`, the current segment is emitted
only if it has more than one point and a new segment starts; the final
segment is likewise emitted only if it has more than one point. -/
def splitGo (g : ℤ) : DailyPoint → List DailyPoint → List DailyPoint →
    List (List DailyPoint)
  | _, cur, [] => if 1 < cur.length then [cur] else []
  | prev, cur, p :: rest =>
    if g < p.date - prev.date then
      (if 1 < cur.length then [cur] else []) ++ splitGo g p [p] rest
    else
      splitGo g p (cur ++ [p]) rest

/-- `split_data_by_gaps` (`src/analysis/utils.py` lines 164-192): an input of
length at most 1 is returned unchanged as the sole segment (the early
`return [daily_data]`); otherwise the series is walked pairwise and split at
every gap strictly greater than `gap_days`. -/
def split_data_by_gaps (dd : List DailyPoint) (g : ℤ) : List (List DailyPoint) :=
  match dd with
  | [] => [dd]
  | [_] => [dd]
  | p :: rest => splitGo g p [p] rest

/-- Consecutive day gaps within the list never exceed `g`. -/
def gapsLE (g : ℤ) (l : List DailyPoint) : Prop :=
  l.Chain' (fun p q => q.date - p.date ≤ g)

instance (g : ℤ) (l : List DailyPoint) : Decidable (gapsLE g l) :=
  inferInstanceAs
    (Decidable (l.Chain' (fun p q : DailyPoint => q.date - p.date ≤ g)))

-- ### Helper lemmas about the gap segmenter

lemma splitGo_nil (g : ℤ) (prev : DailyPoint) (cur : List DailyPoint) :
    splitGo g prev cur [] = if 1 < cur.length then [cur] else [] := rfl

lemma splitGo_cons (g : ℤ) (prev : DailyPoint) (cur : List DailyPoint)
    (p : DailyPoint) (rest : List DailyPoint) :
    splitGo g prev cur (p :: rest)
      = if g < p.date - prev.date then
          (if 1 < cur.length then [cur] else []) ++ splitGo g p [p] rest
        else splitGo g p (cur ++ [p]) rest := rfl

lemma splitGo_mem_length {g : ℤ} :
    ∀ (rest : List DailyPoint) (prev : DailyPoint) (cur : List DailyPoint),
      ∀ s ∈ splitGo g prev cur rest, 1 < s.length := by
  intro rest
  induction rest with
  | nil =>
    intro prev cur s hs
    rw [splitGo_nil] at hs
    split at hs
    · rw [List.mem_singleton] at hs; subst hs; assumption
    · exact absurd hs (List.not_mem_nil s)
  | cons p rs ih =>
    intro prev cur s hs
    rw [splitGo_cons] at hs
    split at hs
    · rw [List.mem_append] at hs
      rcases hs with hs | hs
      · split at hs
        · rw [List.mem_singleton] at hs; subst hs; assumption
        · exact absurd hs (List.not_mem_nil s)
      · exact ih p [p] s hs
    · exact ih p (cur ++ [p]) s hs

lemma splitGo_no_split {g : ℤ} :
    ∀ (rest : List DailyPoint) (prev : DailyPoint) (cur : List DailyPoint),
      (prev :: rest).Chain' (fun p q => q.date - p.date ≤ g) →
      splitGo g prev cur rest
        = if 1 < (cur ++ rest).length then [cur ++ rest] else [] := by
  intro rest
  induction rest with
  | nil => intro prev cur _; rw [splitGo_nil]; simp
  | cons p rs ih =>
    intro prev cur h
    rw [List.chain'_cons] at h
    rw [splitGo_cons, if_neg (not_lt.mpr h.1), ih p (cur ++ [p]) h.2]
    simp

lemma splitGo_one_split {g : ℤ} :
    ∀ (mid : List DailyPoint) (prev : DailyPoint) (cur : List DailyPoint)
      (b : DailyPoint) (rest : List DailyPoint),
      (prev :: mid).Chain' (fun p q => q.date - p.date ≤ g) →
      g < b.date - ((prev :: mid).getLast (List.cons_ne_nil prev mid)).date →
      splitGo g prev cur (mid ++ b :: rest)
        = (if 1 < (cur ++ mid).length then [cur ++ mid] else [])
          ++ splitGo g b [b] rest := by
  intro mid
  induction mid with
  | nil =>
    intro prev cur b rest _ hgap
    simp only [List.getLast_singleton] at hgap
    simp only [List.nil_append]
    rw [splitGo_cons, if_pos hgap]
    simp
  | cons m ms ih =>
    intro prev cur b rest h hgap
    rw [List.chain'_cons] at h
    rw [List.getLast_cons (List.cons_ne_nil m ms)] at hgap
    simp only [List.cons_append]
    rw [splitGo_cons, if_neg (not_lt.mpr h.1), ih m (cur ++ [m]) b rest h.2 hgap]
    simp

lemma split_eq_go (g : ℤ) (p : DailyPoint) (rest : List DailyPoint)
    (h : rest ≠ []) :
    split_data_by_gaps (p :: rest) g = splitGo g p [p] rest := by
  cases rest with
  | nil => exact absurd rfl h
  | cons q rs => rfl

-- ### Claim C4 (corrected): segment lengths

/-- Claim C4, amended: for every input of length at least 2, every segment
returned by the gap segmenter has length strictly greater than 1, and the
result may be the empty list when all segments end up singletons; an input of
length 0 or 1, however, is returned unchanged as the sole (singleton or
empty) segment by the early `return [daily_data]`. -/
theorem split_data_by_gaps_segment_lengths (dd : List DailyPoint) (g : ℤ) :
    (2 ≤ dd.length → ∀ s ∈ split_data_by_gaps dd g, 1 < s.length)
    ∧ (dd.length ≤ 1 → split_data_by_gaps dd g = [dd])
    ∧ split_data_by_gaps [⟨0, 0, 1⟩, ⟨100, 0, 1⟩] 30 = [] := by
  refine ⟨?_, ?_, by decide⟩
  · intro hlen s hs
    match dd, hlen with
    | p :: q :: rest, _ =>
      rw [split_eq_go g p (q :: rest) (List.cons_ne_nil q rest)] at hs
      exact splitGo_mem_length (q :: rest) p [p] s hs
  · intro hlen
    match dd, hlen with
    | [], _ => rfl
    | [p], _ => rfl

/-- Counterexample to C4 as stated: on the one-point input `[⟨0, 70, 1⟩]` the
segmenter returns that very list as a single segment of length 1, so it is
not the case that every returned segment has length strictly greater than 1
for inputs of length 0 or 1. -/
theorem split_data_by_gaps_singleton_counterexample :
    split_data_by_gaps [⟨0, 70, 1⟩] 30 = [[⟨0, 70, 1⟩]]
    ∧ ¬ (∀ s ∈ split_data_by_gaps [⟨0, 70, 1⟩] 30, 1 < s.length) := by
  exact ⟨rfl, by decide⟩

/-- Witness for the amended C4 at a concrete input of length 2. -/
theorem split_data_by_gaps_segment_lengths_witness :
    2 ≤ ([⟨0, 1, 1⟩, ⟨1, 2, 1⟩] : List DailyPoint).length
    ∧ ∀ s ∈ split_data_by_gaps [⟨0, 1, 1⟩, ⟨1, 2, 1⟩] 30, 1 < s.length :=
  ⟨by decide, (split_data_by_gaps_segment_lengths [⟨0, 1, 1⟩, ⟨1, 2, 1⟩] 30).1 (by decide)⟩

-- ### Claim C5: one oversized gap splits the series in two

/-- Claim C5: for a date-ordered series `(a :: A') ++ b :: B'` whose only
inter-day gap possibly exceeding the threshold is the one of `g` days between
the two halves: if `g` is strictly greater than the threshold and both sides
have at least 2 points the segmenter returns exactly the 2 segments, and if
`g ≤` threshold (inclusive boundary) it returns exactly 1 segment. -/
theorem split_data_by_gaps_single_gap (t : ℤ) (a : DailyPoint)
    (A' : List DailyPoint) (b : DailyPoint) (B' : List DailyPoint)
    (hA : gapsLE t (a :: A')) (hB : gapsLE t (b :: B')) :
    (t < b.date - ((a :: A').getLast (List.cons_ne_nil a A')).date →
      1 ≤ A'.length → 1 ≤ B'.length →
      split_data_by_gaps ((a :: A') ++ b :: B') t = [a :: A', b :: B'])
    ∧ (b.date - ((a :: A').getLast (List.cons_ne_nil a A')).date ≤ t →
      split_data_by_gaps ((a :: A') ++ b :: B') t = [(a :: A') ++ b :: B']) := by
  constructor
  · intro hgap hA' hB'
    rw [List.cons_append, split_eq_go t a (A' ++ b :: B') (by simp),
      splitGo_one_split A' a [a] b B' hA hgap,
      splitGo_no_split B' b [b] hB]
    have h1 : 1 < (([a] : List DailyPoint) ++ A').length := by
      simp; omega
    have h2 : 1 < (([b] : List DailyPoint) ++ B').length := by
      simp; omega
    rw [if_pos h1, if_pos h2]
    simp
  · intro hgap
    have hchain : ((a :: A') ++ b :: B').Chain'
        (fun p q => q.date - p.date ≤ t) := by
      apply List.Chain'.append hA hB
      intro x hx y hy
      rw [List.getLast?_eq_getLast _ (List.cons_ne_nil a A')] at hx
      rw [Option.mem_some_iff] at hx
      rw [List.head?_cons, Option.mem_some_iff] at hy
      subst hx; subst hy
      exact hgap
    rw [List.cons_append] at hchain ⊢
    rw [split_eq_go t a (A' ++ b :: B') (by simp)]
    rw [List.chain'_cons'] at hchain
    rw [splitGo_no_split (A' ++ b :: B') a [a] (by rw [List.chain'_cons']; exact hchain)]
    rw [if_pos (by simp)]
    simp

/-- Witness for C5: a series with points on days 0, 1, 40, 41 and threshold
30 splits into exactly the two segments on either side of the 39-day gap. -/
theorem split_data_by_gaps_single_gap_witness :
    split_data_by_gaps
        [⟨0, 1, 1⟩, ⟨1, 2, 1⟩, ⟨40, 3, 1⟩, ⟨41, 4, 1⟩] 30
      = [[⟨0, 1, 1⟩, ⟨1, 2, 1⟩], [⟨40, 3, 1⟩, ⟨41, 4, 1⟩]] :=
  (split_data_by_gaps_single_gap 30 ⟨0, 1, 1⟩ [⟨1, 2, 1⟩] ⟨40, 3, 1⟩
      [⟨41, 4, 1⟩]
      (List.chain'_cons.mpr ⟨by decide, List.chain'_singleton _⟩)
      (List.chain'_cons.mpr ⟨by decide, List.chain'_singleton _⟩)).1
    (by decide) (by decide) (by decide)

-- ### Statistics summarizer (`calculate_basic_statistics`, utils.py 89-102)

/-- The statistics dict built by `calculate_basic_statistics`.  The code's
`std` field is `statistics.stdev(values)`, the square root of the sample
variance with `n − 1` denominator; to stay in exact arithmetic the embedding
carries its square `std_sq` (so `std = √std_sq`, and since the square root is
injective on non-negatives every claim about `std` translates to the same
claim about `std_sq`). -/
structure Stats where
  count : ℕ
  mean : ℚ
  median : ℚ
  min : ℚ
  max : ℚ
  std_sq : ℚ
  range : ℚ
deriving DecidableEq, Repr

/-- `statistics.median`: middle element of the sorted values, or the average
of the two middle elements when the count is even. -/
def listMedian (l : List ℚ) : ℚ :=
  let s := List.insertionSort (· ≤ ·) l
  let n := l.length
  if n % 2 = 1 then s.getD (n / 2) 0
  else (s.getD (n / 2 - 1) 0 + s.getD (n / 2) 0) / 2

/-- The sample variance with `n − 1` denominator: the square of
`statistics.stdev`. -/
def sampleVariance (l : List ℚ) : ℚ :=
  (l.map (fun x => (x - listMean l) ^ 2)).sum / ((l.length : ℚ) - 1)

/-- `calculate_basic_statistics` (`src/analysis/utils.py` lines 89-102):
empty input yields the empty dict (modelled as `none`); otherwise count,
mean, median, min, max, std (`statistics.stdev` when more than one value,
else 0) and range. -/
def calculate_basic_statistics (values : List ℚ) : Option Stats :=
  if values = [] then none
  else some
    { count := values.length
      mean := listMean values
      median := listMedian values
      min := listMin values
      max := listMax values
      std_sq := if 1 < values.length then sampleVariance values else 0
      range := listMax values - listMin values }

/-- The caller-computed `total_change` of
`GenericHealthAnalyzer.analyze_statistics` (line 346): last raw daily value
minus the first. -/
def total_change (values : List ℚ) : ℚ := values.getLastD 0 - values.headD 0

-- ### Claim C9 (corrected): statistics of a non-empty sequence

/-- Claim C9, amended: for every non-empty numeric sequence the summarizer
returns count = length, range = max − min, and std computed as the sample
standard deviation with n−1 denominator when count > 1 and std = 0 when
count = 1; for values [70, 71, 72] this gives mean 71, median 71, range 2 and
std exactly 1 (std_sq = 1) — not ≈ 0.8165, which is the population value —
and the caller-computed totalChange equals the last raw daily value minus the
first, 72 − 70 = 2. -/
theorem calculate_basic_statistics_props (values : List ℚ) (h : values ≠ []) :
    (∃ s, calculate_basic_statistics values = some s
      ∧ s.count = values.length
      ∧ s.range = listMax values - listMin values
      ∧ (1 < values.length → s.std_sq = sampleVariance values)
      ∧ (values.length = 1 → s.std_sq = 0))
    ∧ calculate_basic_statistics [70, 71, 72] = some ⟨3, 71, 71, 70, 72, 1, 2⟩
    ∧ total_change [70, 71, 72] = 2 := by
  refine ⟨?_, ?_, ?_⟩
  · unfold calculate_basic_statistics
    rw [if_neg h]
    exact ⟨_, rfl, rfl, rfl, fun hl => by rw [if_pos hl],
      fun hl => by rw [if_neg (by omega)]⟩
  · simp [calculate_basic_statistics, listMean, listMedian, sampleVariance,
      listMin, listMax, List.insertionSort, List.orderedInsert]
    norm_num
  · norm_num [total_change]

/-- Counterexample to C9 as stated: for [70, 71, 72] the code's std is the
sample standard deviation √1 = 1, whereas the claim's ≈ 0.8165 would require
the squared std to be 0.8165² ≈ 2/3; the two differ. -/
theorem calculate_basic_statistics_std_counterexample :
    (calculate_basic_statistics [70, 71, 72]).map (fun s => s.std_sq) = some 1
    ∧ (0.8165 : ℚ) ^ 2 ≠ 1 := by
  constructor
  · simp [calculate_basic_statistics, listMean, sampleVariance]
    norm_num
  · norm_num

/-- Witness for the amended C9 at the concrete input [70, 71, 72]. -/
theorem calculate_basic_statistics_props_witness :
    (([70, 71, 72] : List ℚ) ≠ [])
    ∧ ((∃ s, calculate_basic_statistics [70, 71, 72] = some s
      ∧ s.count = ([70, 71, 72] : List ℚ).length
      ∧ s.range = listMax [70, 71, 72] - listMin [70, 71, 72]
      ∧ (1 < ([70, 71, 72] : List ℚ).length → s.std_sq = sampleVariance [70, 71, 72])
      ∧ (([70, 71, 72] : List ℚ).length = 1 → s.std_sq = 0))
    ∧ calculate_basic_statistics [70, 71, 72] = some ⟨3, 71, 71, 70, 72, 1, 2⟩
    ∧ total_change [70, 71, 72] = 2) :=
  ⟨by simp, calculate_basic_statistics_props [70, 71, 72] (by simp)⟩

-- ### Derived-metric loaders (generic_health_analyzer.py lines 89-266)

/-- Outcome of a derived-metric load step.  The code prints a message and
returns `False` on failure; the two distinct failure messages — required
component data missing (naming the absent components) and no overlapping
dates — are modelled as distinct constructors.  `component_files`, the config
entry naming the component inputs, is absent from the repository's config
module; following the spec (and the `required_components` lists in the code)
the components are exactly intake/basal/active, plus weight for the
weight-prediction pipeline. -/
inductive LoadResult (α : Type) where
  | missing (names : List String)
  | noOverlap
  | ok (data : α)
deriving DecidableEq, Repr

/-- Lookup in the by-date dict built from a daily aggregate
(`{entry['date'].date(): entry['value'] for entry in daily}`). -/
def dailyLookup (data : List Entry) (agg : String) (d : ℤ) : Option ℚ :=
  ((aggregate_daily_data data agg).find? (fun p => p.date == d)).map
    (fun p => p.value)

/-- The `.get(date_key, 0)` lookup used for the calorie components in
`load_weight_prediction_data` (lines 226-228). -/
def lookupD (data : List Entry) (agg : String) (d : ℤ) : ℚ :=
  (dailyLookup data agg d).getD 0

lemma find?_map_date (keys : List ℤ) (f : ℤ → DailyPoint)
    (hf : ∀ k, (f k).date = k) (d : ℤ) :
    ((keys.map f).find? (fun p => p.date == d)).map (fun p => p.value)
      = if d ∈ keys then some ((f d).value) else none := by
  induction keys with
  | nil => rfl
  | cons k ks ih =>
    rw [List.map_cons]
    by_cases hk : k = d
    · subst hk
      rw [List.find?_cons_of_pos _ (by simp [hf])]
      simp
    · rw [List.find?_cons_of_neg _ (by simp [hf, hk])]
      simp only [List.mem_cons]
      rw [ih]
      simp [Ne.symm hk]

lemma dailyLookup_eq (data : List Entry) (agg : String) (d : ℤ) :
    dailyLookup data agg d
      = if d ∈ dateKeysL data then some (aggValue agg (valuesOn data d))
        else none := by
  unfold dailyLookup aggregate_daily_data
  exact find?_map_date (dateKeysL data) _ (fun k => rfl) d

/-- One output record of `load_calorie_balance_data` for date `d`: present
exactly when all three components have a daily sum on `d`, with value
`intake − basal − active` (lines 130-145). -/
def balanceRow (intake basal active : List Entry) (d : ℤ) : Option Entry :=
  match dailyLookup intake "sum" d, dailyLookup basal "sum" d,
      dailyLookup active "sum" d with
  | some vi, some vb, some va => some ⟨d, some (vi - vb - va)⟩
  | _, _, _ => none

/-- `sorted(daily_data.keys())` of the balance loop: the dates appearing in
at least one component's daily aggregate, ascending without duplicates. -/
def unionDates (intake basal active : List Entry) : List ℤ :=
  List.insertionSort (· ≤ ·)
    ((dateKeysL intake ++ dateKeysL basal ++ dateKeysL active).dedup)

/-- `GenericHealthAnalyzer.load_calorie_balance_data`
(`src/analysis/generic_health_analyzer.py` lines 89-157): fail naming the
missing components if any of the three inputs is entirely absent; aggregate
each input to daily sums; keep only the dates on which all three components
are present, with value `intake − basal − active`; fail with the no-overlap
message when no date survives. -/
def load_calorie_balance_data (intake basal active : List Entry) :
    LoadResult (List Entry) :=
  let missing :=
    (if intake = [] then ["intake"] else []) ++
    (if basal = [] then ["basal"] else []) ++
    (if active = [] then ["active"] else [])
  if missing = [] then
    let rows := (unionDates intake basal active).filterMap
      (balanceRow intake basal active)
    if rows = [] then .noOverlap else .ok rows
  else .missing missing

lemma balanceRow_eq (intake basal active : List Entry) (d : ℤ) :
    balanceRow intake basal active d
      = if d ∈ dateKeysL intake ∧ d ∈ dateKeysL basal ∧ d ∈ dateKeysL active
        then some ⟨d, some ((valuesOn intake d).sum - (valuesOn basal d).sum
          - (valuesOn active d).sum)⟩
        else none := by
  unfold balanceRow
  rw [dailyLookup_eq, dailyLookup_eq, dailyLookup_eq]
  have hsum : ∀ l : List ℚ, aggValue "sum" l = l.sum := fun l => by
    simp [aggValue]
  by_cases h1 : d ∈ dateKeysL intake <;> by_cases h2 : d ∈ dateKeysL basal <;>
    by_cases h3 : d ∈ dateKeysL active <;> simp [h1, h2, h3, hsum]

lemma mem_unionDates {intake basal active : List Entry} {d : ℤ} :
    d ∈ unionDates intake basal active
      ↔ d ∈ dateKeysL intake ∨ d ∈ dateKeysL basal ∨ d ∈ dateKeysL active := by
  unfold unionDates
  rw [List.mem_insertionSort, List.mem_dedup]
  simp

-- ### Claim C2: the calorie-balance records

/-- Claim C2: when the calorie-balance load succeeds, a derived record exists
exactly for each date present in all three daily-sum series, with value
`intake − basal − active` for that date; dates missing from any one component
produce no record at all. -/
theorem load_calorie_balance_data_ok (intake basal active : List Entry)
    (rows : List Entry) (d : ℤ)
    (hok : load_calorie_balance_data intake basal active = .ok rows) :
    ((∃ e ∈ rows, e.date = d)
      ↔ d ∈ dateKeysL intake ∧ d ∈ dateKeysL basal ∧ d ∈ dateKeysL active)
    ∧ ∀ e ∈ rows, e.date = d →
        e.value = some ((valuesOn intake d).sum - (valuesOn basal d).sum
          - (valuesOn active d).sum) := by
  unfold load_calorie_balance_data at hok
  by_cases hi : intake = [] <;> by_cases hb : basal = [] <;>
    by_cases ha : active = [] <;> simp [hi, hb, ha] at hok
  split at hok
  next => exact absurd hok (by simp)
  next =>
      rw [LoadResult.ok.injEq] at hok
      subst hok
      constructor
      · constructor
        · rintro ⟨e, he, hed⟩
          rw [List.mem_filterMap] at he
          obtain ⟨d', _, hf⟩ := he
          rw [balanceRow_eq] at hf
          split at hf
          · rename_i hcond
            rw [Option.some.injEq] at hf
            subst hf
            simp only [] at hed
            subst hed
            exact hcond
          · cases hf
        · rintro ⟨h1, h2, h3⟩
          refine ⟨⟨d, some ((valuesOn intake d).sum - (valuesOn basal d).sum
            - (valuesOn active d).sum)⟩, ?_, rfl⟩
          rw [List.mem_filterMap]
          exact ⟨d, mem_unionDates.mpr (Or.inl h1),
            by rw [balanceRow_eq, if_pos ⟨h1, h2, h3⟩]⟩
      · intro e he hed
        rw [List.mem_filterMap] at he
        obtain ⟨d', _, hf⟩ := he
        rw [balanceRow_eq] at hf
        split at hf
        · rw [Option.some.injEq] at hf
          subst hf
          simp only [] at hed
          subst hed
          rfl
        · cases hf

/-- Witness for C2: three single-day series on the same date with intake 2000,
basal 1500 and active 400 produce a record for that date whose balance is
2000 − 1500 − 400 = 100. -/
theorem load_calorie_balance_data_ok_witness :
    load_calorie_balance_data [⟨0, some 2000⟩] [⟨0, some 1500⟩] [⟨0, some 400⟩]
      = .ok [⟨0, some 100⟩]
    ∧ ((∃ e ∈ [(⟨0, some 100⟩ : Entry)], e.date = 0)
      ↔ (0 : ℤ) ∈ dateKeysL [⟨0, some 2000⟩] ∧ (0 : ℤ) ∈ dateKeysL [⟨0, some 1500⟩]
        ∧ (0 : ℤ) ∈ dateKeysL [⟨0, some 400⟩])
    ∧ ∀ e ∈ [(⟨0, some 100⟩ : Entry)], e.date = 0 →
        e.value = some ((valuesOn [⟨0, some 2000⟩] 0).sum
          - (valuesOn [⟨0, some 1500⟩] 0).sum - (valuesOn [⟨0, some 400⟩] 0).sum) := by
  have hload : load_calorie_balance_data [⟨0, some 2000⟩] [⟨0, some 1500⟩]
      [⟨0, some 400⟩] = .ok [⟨0, some 100⟩] := by
    simp [load_calorie_balance_data, unionDates, balanceRow, dailyLookup,
      aggregate_daily_data, dateKeysL, valuesOn, aggValue, List.insertionSort,
      List.orderedInsert, List.find?]
    norm_num
  exact ⟨hload, load_calorie_balance_data_ok _ _ _ _ 0 hload⟩

-- ### Weight-prediction loader (generic_health_analyzer.py lines 159-266)

/-- One row of the weight-prediction analysis (the `raw_data` dict built at
lines 241-255). -/
structure PredRow where
  date : ℤ
  actual_weight : ℚ
  theoretical_weight : ℚ
  prediction_error : ℚ
  cumulative_deficit : ℚ
  daily_balance : ℚ
deriving DecidableEq, Repr

instance : Inhabited PredRow := ⟨⟨0, 0, 0, 0, 0, 0⟩⟩

/-- The forward iteration of `load_weight_prediction_data` (lines 218-255):
for each date, the daily balance is added to the running cumulative deficit
(including on the very first date, before the theoretical weight is
computed), the theoretical weight is `initW + cumulative/kcal`, and the
prediction error is actual minus theoretical. -/
def predRows (kcal initW : ℚ) (wl il bl al : ℤ → ℚ) :
    ℚ → List ℤ → List PredRow
  | _, [] => []
  | cum, d :: ds =>
    let bal := il d - bl d - al d
    let cum2 := cum + bal
    let th := initW + cum2 / kcal
    ⟨d, wl d, th, wl d - th, cum2, bal⟩ ::
      predRows kcal initW wl il bl al cum2 ds

/-- `sorted(all_dates)` of lines 199-208: the dates present in all four daily
aggregates, ascending (the intersection of the four key sets, obtained by
filtering the already-sorted weight keys). -/
def interDates (weight intake basal active : List Entry) : List ℤ :=
  (dateKeysL weight).filter (fun d =>
    decide (d ∈ dateKeysL intake ∧ d ∈ dateKeysL basal ∧ d ∈ dateKeysL active))

/-- `GenericHealthAnalyzer.load_weight_prediction_data`
(`src/analysis/generic_health_analyzer.py` lines 159-266): fail naming the
missing components if any of the four inputs is entirely absent; aggregate
weight by daily mean and the calorie components by daily sum; fail with the
no-overlap message when the four daily series share no date; otherwise set
the initial weight to the weight on the first common date and iterate the
cumulative-deficit recurrence over the sorted common dates. -/
def load_weight_prediction_data (weight intake basal active : List Entry)
    (kcal : ℚ) : LoadResult (List PredRow) :=
  let missing :=
    (if weight = [] then ["weight"] else []) ++
    (if intake = [] then ["intake"] else []) ++
    (if basal = [] then ["basal"] else []) ++
    (if active = [] then ["active"] else [])
  if missing = [] then
    let sortedDates := interDates weight intake basal active
    if sortedDates = [] then .noOverlap
    else
      let initW := lookupD weight "mean" (sortedDates.headD 0)
      .ok (predRows kcal initW (lookupD weight "mean") (lookupD intake "sum")
        (lookupD basal "sum") (lookupD active "sum") 0 sortedDates)
  else .missing missing

lemma load_calorie_balance_missing (intake basal active : List Entry)
    (h : ¬((if intake = [] then ["intake"] else [])
        ++ (if basal = [] then ["basal"] else [])
        ++ (if active = [] then ["active"] else []) = [])) :
    load_calorie_balance_data intake basal active
      = .missing ((if intake = [] then ["intake"] else [])
          ++ (if basal = [] then ["basal"] else [])
          ++ (if active = [] then ["active"] else [])) := by
  unfold load_calorie_balance_data
  exact if_neg h

lemma load_weight_prediction_missing (weight intake basal active : List Entry)
    (kcal : ℚ)
    (h : ¬((if weight = [] then ["weight"] else [])
        ++ (if intake = [] then ["intake"] else [])
        ++ (if basal = [] then ["basal"] else [])
        ++ (if active = [] then ["active"] else []) = [])) :
    load_weight_prediction_data weight intake basal active kcal
      = .missing ((if weight = [] then ["weight"] else [])
          ++ (if intake = [] then ["intake"] else [])
          ++ (if basal = [] then ["basal"] else [])
          ++ (if active = [] then ["active"] else [])) := by
  unfold load_weight_prediction_data
  exact if_neg h

-- ### Claim C7: failure policy of the derived-metric loaders

/-- Claim C7: for both derived-metric pipelines, whenever any required
component series is entirely absent, or the date intersection of the present
components is empty, the load step returns an explicit failure result rather
than raising, and in the missing-component case the names reported are
exactly the absent components. -/
theorem derived_loaders_failure (intake basal active weight : List Entry)
    (kcal : ℚ) :
    ((intake = [] ∨ basal = [] ∨ active = []) →
      ∃ names, load_calorie_balance_data intake basal active = .missing names
        ∧ ∀ n, n ∈ names ↔ ((n = "intake" ∧ intake = [])
            ∨ (n = "basal" ∧ basal = []) ∨ (n = "active" ∧ active = [])))
    ∧ (intake ≠ [] → basal ≠ [] → active ≠ [] →
        (∀ d : ℤ, ¬(d ∈ dateKeysL intake ∧ d ∈ dateKeysL basal
          ∧ d ∈ dateKeysL active)) →
        load_calorie_balance_data intake basal active = .noOverlap)
    ∧ ((weight = [] ∨ intake = [] ∨ basal = [] ∨ active = []) →
      ∃ names, load_weight_prediction_data weight intake basal active kcal
          = .missing names
        ∧ ∀ n, n ∈ names ↔ ((n = "weight" ∧ weight = [])
            ∨ (n = "intake" ∧ intake = []) ∨ (n = "basal" ∧ basal = [])
            ∨ (n = "active" ∧ active = [])))
    ∧ (weight ≠ [] → intake ≠ [] → basal ≠ [] → active ≠ [] →
        (∀ d : ℤ, ¬(d ∈ dateKeysL weight ∧ d ∈ dateKeysL intake
          ∧ d ∈ dateKeysL basal ∧ d ∈ dateKeysL active)) →
        load_weight_prediction_data weight intake basal active kcal
          = .noOverlap) := by
  refine ⟨?_, ?_, ?_, ?_⟩
  · intro hmiss
    have hne : ¬((if intake = [] then ["intake"] else [])
        ++ (if basal = [] then ["basal"] else [])
        ++ (if active = [] then ["active"] else []) = []) := by
      rcases hmiss with h | h | h <;> simp [h]
    refine ⟨_, load_calorie_balance_missing intake basal active hne, fun n => ?_⟩
    by_cases hi : intake = [] <;> by_cases hb : basal = [] <;>
      by_cases ha : active = [] <;> simp [hi, hb, ha]
  · intro hi hb ha hinter
    simp only [load_calorie_balance_data]
    rw [if_pos (by simp [hi, hb, ha])]
    have hrows : (unionDates intake basal active).filterMap
        (balanceRow intake basal active) = [] := by
      rw [List.filterMap_eq_nil_iff]
      intro d _
      rw [balanceRow_eq, if_neg (hinter d)]
    rw [if_pos hrows]
  · intro hmiss
    have hne : ¬((if weight = [] then ["weight"] else [])
        ++ (if intake = [] then ["intake"] else [])
        ++ (if basal = [] then ["basal"] else [])
        ++ (if active = [] then ["active"] else []) = []) := by
      rcases hmiss with h | h | h | h <;> simp [h]
    refine ⟨_, load_weight_prediction_missing weight intake basal active kcal hne,
      fun n => ?_⟩
    by_cases hw : weight = [] <;> by_cases hi : intake = [] <;>
      by_cases hb : basal = [] <;> by_cases ha : active = [] <;>
      simp [hw, hi, hb, ha]
  · intro hw hi hb ha hinter
    simp only [load_weight_prediction_data]
    rw [if_pos (by simp [hw, hi, hb, ha])]
    have hdates : interDates weight intake basal active = [] := by
      rw [interDates, List.filter_eq_nil_iff]
      intro d hd
      simp only [decide_eq_true_eq]
      intro hcon
      exact hinter d ⟨hd, hcon⟩
    rw [if_pos hdates]

/-- Witness for C7: with the intake series entirely absent, the
calorie-balance load reports failure naming exactly "intake". -/
theorem derived_loaders_failure_witness :
    (([] : List Entry) = [] ∨ ([⟨0, some 1⟩] : List Entry) = []
      ∨ ([⟨0, some 1⟩] : List Entry) = [])
    ∧ ∃ names, load_calorie_balance_data [] [⟨0, some 1⟩] [⟨0, some 1⟩]
        = .missing names
      ∧ ∀ n, n ∈ names ↔ ((n = "intake" ∧ ([] : List Entry) = [])
          ∨ (n = "basal" ∧ ([⟨0, some 1⟩] : List Entry) = [])
          ∨ (n = "active" ∧ ([⟨0, some 1⟩] : List Entry) = [])) :=
  ⟨Or.inl rfl,
    (derived_loaders_failure [] [⟨0, some 1⟩] [⟨0, some 1⟩] [] 7200).1 (Or.inl rfl)⟩

lemma predRows_cons (kcal initW : ℚ) (wl il bl al : ℤ → ℚ) (cum : ℚ) (d : ℤ)
    (ds : List ℤ) :
    predRows kcal initW wl il bl al cum (d :: ds)
      = ⟨d, wl d, initW + (cum + (il d - bl d - al d)) / kcal,
          wl d - (initW + (cum + (il d - bl d - al d)) / kcal),
          cum + (il d - bl d - al d), il d - bl d - al d⟩ ::
        predRows kcal initW wl il bl al (cum + (il d - bl d - al d)) ds := rfl

lemma predRows_length (kcal initW : ℚ) (wl il bl al : ℤ → ℚ) :
    ∀ (ds : List ℤ) (cum : ℚ),
      (predRows kcal initW wl il bl al cum ds).length = ds.length := by
  intro ds
  induction ds with
  | nil => intro cum; rfl
  | cons d ds' ih =>
    intro cum
    rw [predRows_cons, List.length_cons, List.length_cons, ih]

lemma predRows_getD (kcal initW : ℚ) (wl il bl al : ℤ → ℚ) :
    ∀ (ds : List ℤ) (cum : ℚ) (j : ℕ), j < ds.length →
      (((predRows kcal initW wl il bl al cum ds).getD j
          default).theoretical_weight
        = initW + ((predRows kcal initW wl il bl al cum ds).getD j
            default).cumulative_deficit / kcal)
      ∧ ((predRows kcal initW wl il bl al cum ds).getD j
          default).cumulative_deficit
        = cum + (((predRows kcal initW wl il bl al cum ds).take (j + 1)).map
            (fun r => r.daily_balance)).sum := by
  intro ds
  induction ds with
  | nil => intro cum j hj; exact absurd hj (by simp)
  | cons d ds' ih =>
    intro cum j hj
    rw [predRows_cons]
    match j with
    | 0 =>
      refine ⟨rfl, ?_⟩
      simp
    | j' + 1 =>
      have hj' : j' < ds'.length := by simpa using hj
      have hih := ih (cum + (il d - bl d - al d)) j' hj'
      refine ⟨?_, ?_⟩
      · simpa only [List.getD_cons_succ] using hih.1
      · simp only [List.getD_cons_succ, List.take_succ_cons, List.map_cons,
          List.sum_cons]
        rw [hih.2]
        ring

-- ### Claim C1 (corrected): the weight-prediction recurrence

/-- Claim C1, amended: whenever the weight-prediction load succeeds, for every
day `j` of the output, theoreticalWeight(day j) = initialWeight +
cumulativeDeficit(day j) / kcalPerKg, where initialWeight is the actual
weight on the first common date and cumulativeDeficit(day j) is the sum of
dailyBalance over days 1..j inclusive; in particular on the first common
date the cumulative deficit already includes that day's balance (it is
`dailyBalance(day 1)`, not 0), so theoreticalWeight equals actualWeight on
day 1 only when that day's balance is zero. -/
theorem load_weight_prediction_data_model (weight intake basal active : List Entry)
    (kcal : ℚ) (rows : List PredRow)
    (hok : load_weight_prediction_data weight intake basal active kcal = .ok rows)
    (j : ℕ) (hj : j < rows.length) :
    (rows.getD j default).theoretical_weight
      = (rows.getD 0 default).actual_weight
        + (rows.getD j default).cumulative_deficit / kcal
    ∧ (rows.getD j default).cumulative_deficit
      = ((rows.take (j + 1)).map (fun r => r.daily_balance)).sum := by
  unfold load_weight_prediction_data at hok
  by_cases hw : weight = [] <;> by_cases hi : intake = [] <;>
    by_cases hb : basal = [] <;> by_cases ha : active = [] <;>
    simp [hw, hi, hb, ha] at hok
  split at hok
  next => exact absurd hok (by simp)
  next hdne =>
    rw [LoadResult.ok.injEq] at hok
    subst hok
    obtain ⟨d0, ds', hds⟩ :
        ∃ d0 ds', interDates weight intake basal active = d0 :: ds' := by
      cases hd : interDates weight intake basal active with
      | nil => exact absurd hd hdne
      | cons d0 ds' => exact ⟨d0, ds', rfl⟩
    rw [hds] at hj ⊢
    rw [predRows_length] at hj
    have hmain := predRows_getD kcal
      (lookupD weight "mean" ((d0 :: ds').head?.getD 0)) (lookupD weight "mean")
      (lookupD intake "sum") (lookupD basal "sum") (lookupD active "sum")
      (d0 :: ds') 0 j hj
    have hact : ((predRows kcal (lookupD weight "mean" ((d0 :: ds').head?.getD 0))
        (lookupD weight "mean") (lookupD intake "sum") (lookupD basal "sum")
        (lookupD active "sum") 0 (d0 :: ds')).getD 0 default).actual_weight
        = lookupD weight "mean" ((d0 :: ds').head?.getD 0) := by
      rw [predRows_cons, List.getD_cons_zero]
      rfl
    refine ⟨?_, ?_⟩
    · rw [hact]
      exact hmain.1
    · rw [hmain.2, zero_add]

/-- Counterexample to C1 as stated: on a one-day input with daily balance
2000 − 1500 − 400 = 100 ≠ 0, the first (and only) row has cumulativeDeficit
100 (not 0), theoreticalWeight 70 + 100/7200 ≠ 70 = actualWeight, and
predictionError −100/7200 ≠ 0: the code adds the first day's balance to the
cumulative deficit before computing the theoretical weight. -/
theorem load_weight_prediction_day1_counterexample :
    load_weight_prediction_data [⟨0, some 70⟩] [⟨0, some 2000⟩]
        [⟨0, some 1500⟩] [⟨0, some 400⟩] 7200
      = .ok [⟨0, 70, 70 + 100 / 7200, -(100 / 7200), 100, 100⟩]
    ∧ (100 : ℚ) ≠ 0 ∧ (70 + 100 / 7200 : ℚ) ≠ 70 ∧ (-(100 / 7200) : ℚ) ≠ 0 := by
  refine ⟨?_, by norm_num, by norm_num, by norm_num⟩
  simp [load_weight_prediction_data, interDates, dateKeysL, dailyLookup, lookupD,
    aggregate_daily_data, valuesOn, aggValue, listMean, predRows,
    List.insertionSort, List.orderedInsert, List.find?]
  norm_num

/-- Concrete two-day weight-prediction fixture (daily balances −500, −500,
kcalPerKg 7200) used by the C1 witness. -/
def predFixtureRows : List PredRow :=
  [⟨0, 70, 70 - 500 / 7200, 500 / 7200, -500, -500⟩,
   ⟨1, 71, 70 - 1000 / 7200, 1 + 1000 / 7200, -1000, -500⟩]

/-- Witness for the amended C1: on a two-day input with daily balances −500
and −500 and kcalPerKg 7200, day 2 satisfies theoreticalWeight =
initialWeight + (−1000)/7200 with the cumulative deficit equal to the sum of
the two daily balances. -/
theorem load_weight_prediction_data_model_witness :
    load_weight_prediction_data [⟨0, some 70⟩, ⟨1, some 71⟩]
        [⟨0, some 1500⟩, ⟨1, some 1600⟩] [⟨0, some 1400⟩, ⟨1, some 1400⟩]
        [⟨0, some 600⟩, ⟨1, some 700⟩] 7200 = .ok predFixtureRows
    ∧ 1 < predFixtureRows.length
    ∧ ((predFixtureRows.getD 1 default).theoretical_weight
        = (predFixtureRows.getD 0 default).actual_weight
          + (predFixtureRows.getD 1 default).cumulative_deficit / 7200
      ∧ (predFixtureRows.getD 1 default).cumulative_deficit
        = ((predFixtureRows.take 2).map (fun r => r.daily_balance)).sum) := by
  have hload : load_weight_prediction_data [⟨0, some 70⟩, ⟨1, some 71⟩]
      [⟨0, some 1500⟩, ⟨1, some 1600⟩] [⟨0, some 1400⟩, ⟨1, some 1400⟩]
      [⟨0, some 600⟩, ⟨1, some 700⟩] 7200 = .ok predFixtureRows := by
    simp [load_weight_prediction_data, interDates, dateKeysL, dailyLookup,
      lookupD, aggregate_daily_data, valuesOn, aggValue, listMean, predRows,
      predFixtureRows, List.insertionSort, List.orderedInsert, List.find?]
    norm_num
  exact ⟨hload, by simp [predFixtureRows],
    load_weight_prediction_data_model _ _ _ _ 7200 predFixtureRows hload 1
      (by simp [predFixtureRows])⟩

-- ### Pipeline processing step (`process_data`, lines 268-325)

/-- Result of `GenericHealthAnalyzer.process_data`: the boolean outcome the
method returns, plus the `daily_data` and `rolling_data` it stores. -/
structure ProcessResult where
  ok : Bool
  daily : List DailyPoint
  rolling : List RollingPoint
deriving DecidableEq, Repr

/-- Conversion of an already-daily derived record to `daily_data` format
(lines 278-294, `count` fixed at 1); derived rows always carry a numeric
value. -/
def toDailyPoint (e : Entry) : DailyPoint := ⟨e.date, e.value.getD 0, 1⟩

/-- `GenericHealthAnalyzer.process_data`
(`src/analysis/generic_health_analyzer.py` lines 268-325): empty raw data
fails; the weight-prediction branch converts raw rows to daily points,
computes the rolling average and returns `True` early, before the
minimum-data-points check at line 312; the calorie-balance branch converts
raw rows to daily points and the default branch aggregates, after which both
are gated on `min_data_points` before computing the rolling average. -/
def process_data (special : Option String) (raw : List Entry)
    (minPts window : ℕ) (agg : String) : ProcessResult :=
  if raw = [] then ⟨false, [], []⟩
  else if special = some "weight_prediction" then
    let daily := raw.map toDailyPoint
    ⟨true, daily, calculate_rolling_average daily window⟩
  else
    let daily := if special = some "calorie_balance" then raw.map toDailyPoint
                 else aggregate_daily_data raw agg
    if daily.length < minPts then ⟨false, daily, []⟩
    else ⟨true, daily, calculate_rolling_average daily window⟩

-- ### Claim C6 (corrected): the minimum-data-points gate

/-- Claim C6, amended: for every metric pipeline except weight prediction,
if the daily series produced by the processing step has fewer than
minDataPoints points the step reports failure (returns `False`, so the
orchestrator does not proceed to the summarize step); the weight-prediction
branch, however, returns `True` early and bypasses this gate. -/
theorem process_data_min_points_gate (special : Option String)
    (raw : List Entry) (minPts window : ℕ) (agg : String)
    (hs : special ≠ some "weight_prediction")
    (hlen : (process_data special raw minPts window agg).daily.length < minPts) :
    (process_data special raw minPts window agg).ok = false := by
  simp only [process_data] at hlen ⊢
  by_cases hr : raw = []
  · simp [hr]
  · rw [if_neg hr, if_neg hs] at hlen ⊢
    by_cases hd : (if special = some "calorie_balance" then raw.map toDailyPoint
        else aggregate_daily_data raw agg).length < minPts
    · rw [if_pos hd]
    · rw [if_neg hd] at hlen
      exact absurd hlen hd

/-- Counterexample to C6 as stated: a weight-prediction pipeline whose daily
series has only 1 < 5 points still returns success, because the
weight-prediction branch of `process_data` returns `True` before the
minimum-data-points check. -/
theorem process_data_weight_prediction_counterexample :
    (process_data (some "weight_prediction") [⟨0, some 70⟩] 5 7 "mean").daily.length < 5
    ∧ (process_data (some "weight_prediction") [⟨0, some 70⟩] 5 7 "mean").ok = true := by
  exact ⟨by decide, by decide⟩

/-- Witness for the amended C6: a calorie-balance pipeline with a single daily
point is below the default threshold of 5 and reports failure. -/
theorem process_data_min_points_gate_witness :
    (some "calorie_balance" ≠ some "weight_prediction")
    ∧ (process_data (some "calorie_balance") [⟨0, some 100⟩] 5 7 "mean").daily.length < 5
    ∧ (process_data (some "calorie_balance") [⟨0, some 100⟩] 5 7 "mean").ok = false :=
  ⟨by decide, by decide,
    process_data_min_points_gate _ _ _ _ _ (by decide) (by decide)⟩
